import Mathlib

/-!
Verification development for the `many-neurons.ipynb` example notebook.

The notebook is a linear sequence of calls into the `nengo` simulation
library and `matplotlib`.  We embed it as a concrete list of `Step`s (one
per library call, in source order, with the literal arguments from the
notebook) together with an executable state-transition semantics
`execStep` / `execList`.  The numerical results produced by the external
simulation engine (probe recordings, the `sorted_neurons` index order) are
not part of the repository, so the semantics is parameterised by an
abstract `Engine` supplying them.
-/

namespace ManyNeurons

/-- Handles created by the notebook and passed between library calls. -/
inductive ObjRef
  | model
  | A
  | sinNode
deriving DecidableEq

/-- Targets of the three `nengo.Probe` calls: a node, an ensemble, or the
`.neurons` attribute of an ensemble. -/
inductive ProbeTarget
  | node (r : ObjRef)
  | ensemble (r : ObjRef)
  | neurons (r : ObjRef)
deriving DecidableEq

/-- Syntax of the pure arithmetic expression passed as the node output
function `lambda t: np.sin(8 * t)`: it mentions only the time argument,
rational constants, multiplication and sine — no other state. -/
inductive PyExpr
  | time
  | const (q : ℚ)
  | mul (a b : PyExpr)
  | sin (e : PyExpr)
deriving DecidableEq

/-- Denotation of a node-output expression over a carrier with a
multiplication, a sine function and an embedding of the constants.  The
value depends only on the expression and the time argument `t`. -/
def PyExpr.evalWith {α : Type} [Mul α] (sinF : α → α) (c : ℚ → α) : PyExpr → α → α
  | .time, t => t
  | .const q, _ => c q
  | .mul a b, t => (a.evalWith sinF c t) * (b.evalWith sinF c t)
  | .sin e, t => sinF (e.evalWith sinF c t)

/-- The expression `np.sin(8 * t)` from the notebook's `nengo.Node` call. -/
def sineExpr : PyExpr := .sin (.mul (.const 8) .time)

/-- Modelled from the spec: the neuron model of the ensemble.  The
`nengo.Ensemble` constructor is not under `src/`; per the spec ("a
population of simulated leaky integrate-and-fire neurons", "These are 100
leaky integrate-and-fire (LIF) neurons") its default neuron type is LIF. -/
inductive NeuronType
  | LIF
deriving DecidableEq

/-- Modelled from the spec: the default neuron type used when the notebook
calls `nengo.Ensemble(100, dimensions=1)` without a `neuron_type`
argument. -/
def defaultNeuronType : NeuronType := .LIF

/-- Column selection applied to a recorded spike matrix before it is handed
to `rasterplot`: the whole array (`sim.data[A_spikes]`), a hypothetical
stride slice (`[:, ::k]`), or the fancy-indexing `[:, indices]` with the
indices returned by `sorted_neurons`. -/
inductive ColumnSel
  | all
  | everyNth (k : Nat)
  | byIndices
deriving DecidableEq

/-- Column indices selected by a `ColumnSel` out of `n` columns, given the
`sorted_neurons` result `sorted`. -/
def ColumnSel.colIdx (n : Nat) (sorted : List Nat) : ColumnSel → List Nat
  | .all => List.range n
  | .everyNth k => (List.range n).filter (fun j => j % k = 0)
  | .byIndices => sorted

/-- One library call made by the notebook, with its literal arguments. -/
inductive Step
  | createNetwork (label : String)
  | createEnsemble (nNeurons : Nat) (dimensions : Nat)
  | createNode (output : PyExpr)
  | createConnection (pre post : ObjRef) (synapse : Option ℚ)
  | createProbe (target : ProbeTarget) (synapse : Option ℚ)
  | simCreate (m : ObjRef)
  | simRun (duration : ℚ)
  | simClose
  | plotDecoded (ps : List ProbeTarget)
  | rasterPlot (p : ProbeTarget) (sel : ColumnSel)
  | sortedNeurons (ens : ObjRef) (iterations : Nat)
deriving DecidableEq

/-- The notebook's code cells, call by call, in source order.  `simCreate`
and `simClose` are the enter and exit of the `with nengo.Simulator(model)
as sim:` block. -/
def notebookTrace : List Step :=
  [ .createNetwork "Many Neurons",
    .createEnsemble 100 1,
    .createNode sineExpr,
    .createConnection .sinNode .A (some (1/100)),
    .createProbe (.node .sinNode) none,
    .createProbe (.ensemble .A) (some (1/100)),
    .createProbe (.neurons .A) none,
    .simCreate .model,
    .simRun 1,
    .simClose,
    .plotDecoded [.ensemble .A, .node .sinNode],
    .rasterPlot (.neurons .A) .all,
    .sortedNeurons .A 250,
    .rasterPlot (.neurons .A) .byIndices ]

/-- Results supplied by the external simulation library: the data recorded
for each probe target after the run, and the neuron ordering returned by
`sorted_neurons`. -/
structure Engine where
  record : ProbeTarget → List (List ℚ)
  sortIdx : List Nat

/-- A figure rendered by the notebook: the decoded-output line plot, or a
spike raster of the selected columns of the probed data. -/
inductive Figure
  | lines (ps : List ProbeTarget)
  | raster (p : ProbeTarget) (cols : List Nat) (data : List (List ℚ))
deriving DecidableEq

/-- Fancy indexing `m[:, cols]`: every row restricted to the columns
`cols`, in that order.  A pure function of its arguments. -/
def selectCols (m : List (List ℚ)) (cols : List Nat) : List (List ℚ) :=
  m.map (fun row => cols.map (fun j => row.getD j 0))

/-- Notebook state: the model objects built so far, the simulator status,
the recorded data, the `sorted_neurons` result, and the figures drawn. -/
structure NbState where
  network : Option String
  ensembles : List (Nat × Nat × NeuronType)
  nodes : List PyExpr
  connections : List (ObjRef × ObjRef × Option ℚ)
  probes : List (ProbeTarget × Option ℚ)
  simOpen : Bool
  runs : List ℚ
  simData : Option (ProbeTarget → List (List ℚ))
  sortIndices : Option (List Nat)
  figures : List Figure

/-- The state before the notebook runs: nothing constructed yet. -/
def initState : NbState :=
  { network := none, ensembles := [], nodes := [], connections := [],
    probes := [], simOpen := false, runs := [], simData := none,
    sortIndices := none, figures := [] }

/-- Effect of one library call on the notebook state.  Construction calls
append to the model; `simRun` records the engine's probe data; plotting
calls only append figures; `sortedNeurons` stores the engine's index
order. -/
def execStep (eng : Engine) (st : NbState) : Step → NbState
  | .createNetwork l => { st with network := some l }
  | .createEnsemble n d => { st with ensembles := st.ensembles ++ [(n, d, defaultNeuronType)] }
  | .createNode e => { st with nodes := st.nodes ++ [e] }
  | .createConnection a b syn => { st with connections := st.connections ++ [(a, b, syn)] }
  | .createProbe tgt syn => { st with probes := st.probes ++ [(tgt, syn)] }
  | .simCreate _ => { st with simOpen := true }
  | .simRun d => { st with runs := st.runs ++ [d], simData := some eng.record }
  | .simClose => { st with simOpen := false }
  | .plotDecoded ps => { st with figures := st.figures ++ [.lines ps] }
  | .rasterPlot tgt sel =>
      let data := match st.simData with
        | some r => r tgt
        | none => []
      let n := (st.ensembles.headD (0, 0, defaultNeuronType)).1
      let cols := sel.colIdx n (st.sortIndices.getD [])
      { st with figures := st.figures ++ [.raster tgt cols (selectCols data cols)] }
  | .sortedNeurons _ _ => { st with sortIndices := some eng.sortIdx }

/-- Left-to-right execution of a list of steps: each call runs exactly
once, in source order, with no branching. -/
def execList (eng : Engine) (st : NbState) : List Step → NbState
  | [] => st
  | s :: rest => execList eng (execStep eng st s) rest

/-- Phase of a step in the spec's chain: 0 construct model, 1 attach input,
2 wire connection, 3 attach probes, 4 run the simulation, 5 render the two
plots, 6 reorder rows by similarity. -/
def Step.phase : Step → Nat
  | .createNetwork _ => 0
  | .createEnsemble _ _ => 0
  | .createNode _ => 1
  | .createConnection _ _ _ => 2
  | .createProbe _ _ => 3
  | .simCreate _ => 4
  | .simRun _ => 4
  | .simClose => 4
  | .plotDecoded _ => 5
  | .rasterPlot _ .all => 5
  | .rasterPlot _ _ => 6
  | .sortedNeurons _ _ => 6

/-- Arguments of an ensemble-constructor step, if it is one. -/
def Step.ensembleArgs : Step → Option (Nat × Nat)
  | .createEnsemble n d => some (n, d)
  | _ => none

/-- Output expression of a node-constructor step, if it is one. -/
def Step.nodeArgs : Step → Option PyExpr
  | .createNode e => some e
  | _ => none

/-- Arguments of a connection-constructor step, if it is one. -/
def Step.connArgs : Step → Option (ObjRef × ObjRef × Option ℚ)
  | .createConnection a b s => some (a, b, s)
  | _ => none

/-- Duration argument of a `sim.run` step, if it is one. -/
def Step.runArgs : Step → Option ℚ
  | .simRun d => some d
  | _ => none

/-- Model argument of a simulator-constructor step, if it is one. -/
def Step.simCreateArgs : Step → Option ObjRef
  | .simCreate m => some m
  | _ => none

/-- An exception raised by an external library call; the payload stands
for whatever the library reports. -/
inductive PyError
  | external (code : Nat)
deriving DecidableEq

/-- Execution of the notebook when external calls may raise: `oracle i`
says whether the `i`-th library call raises and what.  The notebook has no
`try`/`except`, so the semantics has no handler case: the first raised
error is returned as-is and no further step runs. -/
def execExcept (eng : Engine) (oracle : Nat → Option PyError) :
    Nat → NbState → List Step → Except PyError NbState
  | _, st, [] => .ok st
  | i, st, s :: rest =>
      match oracle i with
      | some e => .error e
      | none => execExcept eng oracle (i + 1) (execStep eng st s) rest

/-- Helper for C6: if every call before position `i` succeeds and call `i`
raises `e`, the run from any start offset returns exactly `e`. -/
theorem execExcept_first_error (eng : Engine) (oracle : Nat → Option PyError) :
    ∀ (l : List Step) (k : Nat) (st : NbState) (i : Nat) (e : PyError),
      i < l.length → (∀ j, j < i → oracle (k + j) = none) →
      oracle (k + i) = some e →
      execExcept eng oracle k st l = .error e := by
  intro l
  induction l with
  | nil =>
      intro k st i e hi _ _
      exact absurd hi (by simp)
  | cons s rest ih =>
      intro k st i e hi hpre hfail
      cases i with
      | zero =>
          simp only [execExcept]
          rw [show k + 0 = k from rfl] at hfail
          rw [hfail]
      | succ i =>
          have hk : oracle k = none := by
            have := hpre 0 (Nat.succ_pos i)
            simpa using this
          simp only [execExcept, hk]
          have hpre2 : ∀ j, j < i → oracle (k + 1 + j) = none := by
            intro j hj
            have := hpre (j + 1) (Nat.succ_lt_succ hj)
            rw [show k + 1 + j = k + (j + 1) by omega]
            exact this
          have hfail2 : oracle (k + 1 + i) = some e := by
            rw [show k + 1 + i = k + (i + 1) by omega]
            exact hfail
          exact ih (k + 1) (execStep eng st s) i e (by simpa using hi) hpre2 hfail2

/-- C1: the notebook executes as a single linear imperative sequence with
no branching (the trace is one concrete list, run left-to-right by
`execList`); mapping each call to its phase in the chain construct model →
attach input → wire connection → attach probes → run → render plots →
reorder rows, the phases are pairwise nondecreasing along the trace — no
later step of the chain occurs before an earlier one — and every phase of
the chain occurs. -/
theorem notebook_linear_sequence :
    List.Pairwise (· ≤ ·) (notebookTrace.map Step.phase)
    ∧ 0 ∈ notebookTrace.map Step.phase
    ∧ 1 ∈ notebookTrace.map Step.phase
    ∧ 2 ∈ notebookTrace.map Step.phase
    ∧ 3 ∈ notebookTrace.map Step.phase
    ∧ 4 ∈ notebookTrace.map Step.phase
    ∧ 5 ∈ notebookTrace.map Step.phase
    ∧ 6 ∈ notebookTrace.map Step.phase := by
  decide

/-- C2: the ensemble constructor is called exactly once in the notebook,
with neuron count 100 and dimensions 1, and (modelled from the spec, the
constructor being external) the default neuron type it uses is leaky
integrate-and-fire. -/
theorem ensemble_once_100_lif :
    notebookTrace.filterMap Step.ensembleArgs = [(100, 1)]
    ∧ defaultNeuronType = NeuronType.LIF := by
  decide

/-- C3: the notebook attaches exactly one input node, whose output
function is the pure expression `sin(8 * t)`: over the reals it returns
`Real.sin (8 * t)` for every time `t`, depending on nothing but `t`. -/
theorem input_is_sine :
    notebookTrace.filterMap Step.nodeArgs = [sineExpr]
    ∧ ∀ t : ℝ, sineExpr.evalWith Real.sin Rat.cast t = Real.sin (8 * t) := by
  refine ⟨by decide, fun t => ?_⟩
  simp [sineExpr, PyExpr.evalWith]

/-- C4: the notebook wires exactly one connection, from the input node to
the ensemble, and it carries a synapse filter set to `0.01` seconds. -/
theorem connection_filtered :
    notebookTrace.filterMap Step.connArgs
      = [(ObjRef.sinNode, ObjRef.A, some (1/100 : ℚ))] := rfl

/-- C5: the simulation is executed by a single `sim.run` call with
duration 1 second; the simulator is constructed once, from the model, and
the run happens inside the context-managed block (between the enter and
the exit of the `with` statement, which are adjacent to it in the
trace). -/
theorem run_once_one_second :
    notebookTrace.filterMap Step.runArgs = [(1 : ℚ)]
    ∧ notebookTrace.filterMap Step.simCreateArgs = [ObjRef.model]
    ∧ (notebookTrace.drop 7).take 3
        = [Step.simCreate .model, Step.simRun 1, Step.simClose] := by
  decide

/-- C6: the notebook has no error handling, validation or recovery of its
own: whenever the first failing external call, at any position `i` of the
trace, raises `e`, executing the notebook returns exactly `.error e` — the
exception propagates out uncaught and unchanged, and no step catches or
translates it. -/
theorem errors_propagate_uncaught (eng : Engine) (oracle : Nat → Option PyError)
    (i : Nat) (e : PyError)
    (hi : i < notebookTrace.length)
    (hpre : ∀ j, j < i → oracle j = none)
    (hfail : oracle i = some e) :
    execExcept eng oracle 0 initState notebookTrace = .error e :=
  execExcept_first_error eng oracle notebookTrace 0 initState i e hi
    (fun j hj => by simpa using hpre j hj) (by simpa using hfail)

/-- Oracle for the C6 witness: the external call at position 4 (the first
probe constructor) raises error code 7; every earlier call succeeds. -/
def demoOracle : Nat → Option PyError :=
  fun n => if n = 4 then some (.external 7) else none

/-- Engine with empty recordings, used to instantiate the semantics at a
concrete input. -/
def demoEngine : Engine := ⟨fun _ => [], []⟩

/-- Witness for C6 at a concrete input: with the call at position 4
raising code 7, the notebook run returns exactly that error. -/
theorem errors_propagate_uncaught_witness :
    execExcept demoEngine demoOracle 0 initState notebookTrace
      = .error (.external 7) :=
  errors_propagate_uncaught demoEngine demoOracle 4 (.external 7)
    (by decide) (by decide) rfl

/-- C8: the final optional cell first obtains the index sequence by
calling `sorted_neurons` on the ensemble and simulator with 250
iterations, then draws the raster from the recorded spike data with its
columns taken in that index order: for every engine, the last figure of
the run is the raster of the spike probe's recording with columns
`eng.sortIdx`. -/
theorem sorted_raster :
    notebookTrace.drop 12
      = [Step.sortedNeurons .A 250, Step.rasterPlot (.neurons .A) .byIndices]
    ∧ ∀ eng : Engine,
        ((execList eng initState notebookTrace).figures).getLast? =
          some (.raster (.neurons .A) eng.sortIdx
                 (selectCols (eng.record (.neurons .A)) eng.sortIdx)) :=
  ⟨rfl, fun _ => rfl⟩

/-- Spike matrix used to evaluate the column selection concretely: one
time row of 100 entries. -/
def sampleSpikes : List (List ℚ) := [List.replicate 100 0]

/-- C9: the raster of the plotting step is drawn from the spike data of
every neuron in the ensemble: the figure it renders selects all 100
columns of the recorded spike array (on full-width data this selection is
the identity), and that selection differs from the every-2nd-neuron
subset named by the accompanying markdown text. -/
theorem raster_uses_all_neurons :
    (∀ eng : Engine,
        ((execList eng initState notebookTrace).figures)[1]? =
          some (.raster (.neurons .A) (List.range 100)
                 (selectCols (eng.record (.neurons .A)) (List.range 100))))
    ∧ selectCols sampleSpikes (List.range 100) = sampleSpikes
    ∧ ColumnSel.colIdx 100 [] .all ≠ ColumnSel.colIdx 100 [] (.everyNth 2) :=
  ⟨fun _ => rfl, by decide, by decide⟩

/-- The plotting and reordering cells: every step of the trace after the
simulation block. -/
def plottingSteps : List Step := notebookTrace.drop 10

/-- C10: plotting and reordering never modify the recorded simulation
results: from any state (in particular the one the run produced) and for
any engine, after executing any number of the plotting and reordering
steps, the results-by-probe data `simData` is unchanged — the column
reindexing of the sorted raster reads the spike array but writes only the
figure list. -/
theorem plots_preserve_sim_data :
    ∀ (eng : Engine) (st : NbState) (k : Nat),
      (execList eng st (plottingSteps.take k)).simData = st.simData := by
  intro eng st k
  match k with
  | 0 => rfl
  | 1 => rfl
  | 2 => rfl
  | 3 => rfl
  | n + 4 =>
      rw [List.take_of_length_le]
      · rfl
      · simp [plottingSteps, notebookTrace]

end ManyNeurons
